import Mathlib

/-!
Verification of the wireless-recovery engine of the network-watchdog
repository (src/wlan.rs, src/main.rs, src/adapter.rs).

The Rust code is effectful (WLAN platform calls, sleeps, an injected
reachability probe).  We embed it shallowly: every platform call is an
oracle recorded in a `WlanEnv` record, and each embedded function returns,
next to its value, the list of observable events it performs (sleeps,
scans, reads, connect attempts, state queries, probes).  Interfaces
(opaque GUIDs in the source) are modelled as `Nat`.
-/

/-- Interface connection state (WLAN_INTERFACE_STATE).  The source only
compares against `wlan_interface_state_connected`; other platform states
are kept abstract. -/
inductive WlanState where
  | connected
  | associating
  | disconnected
  | other (code : Nat)
deriving DecidableEq

/-- Connect strategy, from `enum ConnectStrategy` in src/wlan.rs. -/
inductive ConnectStrategy where
  | ScanOnly
  | All
  | Explicit (names : List String)
deriving DecidableEq

/-- Observable events of one recovery pass (instrumentation of the
side effects of the Rust code, in execution order). -/
inductive Event where
  | enumInterfaces
  | adapterEnableAttempt
  | sleep (secs : Nat)
  | getProfileList (iface : Nat)
  | scan (iface : Nat)
  | readAvailableList (iface : Nat)
  | connectAttempt (iface : Nat) (profile : String)
  | stateQuery (iface : Nat) (round : Nat)
  | probe (iface : Nat) (profile : String)
deriving DecidableEq

/-- Terminal failure reasons of a pass (spec `RecoveryOutcome` failure
reasons realised by the two `bail!` sites in `connect_any_saved_wifi`). -/
inductive FailReason where
  | noInterface
  | exhausted
deriving DecidableEq

/-- Outcome of one recovery pass.  `success` corresponds to `Ok(())`
together with the logged restoring profile; `failure` to the two `bail!`
sites (with the logged tried count); `error` to an error propagated
by `?` (session open or interface enumeration failure). -/
inductive RecoveryOutcome where
  | success (profile : String)
  | failure (reason : FailReason) (tried : Nat)
  | error (msg : String)
deriving DecidableEq

/-- One entry of the platform available-network list: its stored profile
name (may be empty) and its broadcast SSID (may be empty). -/
structure AvailNet where
  profileName : String
  ssid : String
deriving DecidableEq

/-- Oracle environment: the responses of every platform call and of the
injected reachability probe.  `queryState` is indexed by the interface,
the profile currently being attempted and the polling round;
`testNetwork` by the interface and profile of the attempt being
verified. -/
structure WlanEnv where
  openResult : Except String Unit
  enumFirst : Except String (List Nat)
  adapterEnable : Bool
  enumRetry : Except String (List Nat)
  savedProfiles : Nat → Except String (List String)
  availableNetworkList : Nat → Except String (List AvailNet)
  connectAccepted : Nat → String → Except String Unit
  queryState : Nat → String → Nat → Option WlanState
  testNetwork : Nat → String → Bool

/-- HashSet insertion, modelled on lists that never hold duplicates. -/
def hashsetInsert (s : List String) (x : String) : List String :=
  if s.contains x then s else s ++ [x]

/-- The name-collection loop of `get_available_network_names`: insert
each non-empty stored profile name and each non-empty SSID string. -/
def collect_network_names (nets : List AvailNet) : List String :=
  nets.foldl (fun names net =>
    let names1 := if net.profileName = "" then names else hashsetInsert names net.profileName
    if net.ssid = "" then names1 else hashsetInsert names1 net.ssid) []

/-- Embedding of `get_available_network_names` (src/wlan.rs).  When
`trigger_scan` is set it issues a scan request (result ignored) and then
immediately reads the available-network list; the source comment says
"Caller decides whether to sleep" — no wait happens inside. -/
def get_available_network_names (env : WlanEnv) (iface : Nat) (trigger_scan : Bool) :
    Except String (List String) × List Event :=
  let pre : List Event := if trigger_scan then [Event.scan iface] else []
  match env.availableNetworkList iface with
  | Except.error e => (Except.error e, pre ++ [Event.readAvailableList iface])
  | Except.ok nets => (Except.ok (collect_network_names nets), pre ++ [Event.readAvailableList iface])

/-- Embedding of `filter_profiles_by_strategy` (src/wlan.rs). -/
def filter_profiles_by_strategy (saved : List String) (strategy : ConnectStrategy)
    (available_names : Option (List String)) : List String :=
  match strategy with
  | ConnectStrategy.ScanOnly =>
    match available_names with
    | none => []
    | some avail => saved.filter (fun p => avail.contains p)
  | ConnectStrategy.All => saved
  | ConnectStrategy.Explicit names => saved.filter (fun p => names.contains p)

/-- Number of polling rounds: `(max_wait_secs / interval_secs).max(1)`. -/
def poll_rounds (max_wait_secs interval_secs : Nat) : Nat :=
  Nat.max (max_wait_secs / interval_secs) 1

/-- The polling loop body of `poll_wlan_connection_state`: each round
sleeps for the interval, queries the interface state, and stops as soon
as the state is `connected`; `fuel` is the number of rounds left. -/
def pollLoop (query : Nat → Option WlanState) (iface : Nat) (interval : Nat) :
    Nat → Nat → Bool × List Event
  | _, 0 => (false, [])
  | round, fuel + 1 =>
    if query round = some WlanState.connected then
      (true, [Event.sleep interval, Event.stateQuery iface round])
    else
      let r := pollLoop query iface interval (round + 1) fuel
      (r.1, Event.sleep interval :: Event.stateQuery iface round :: r.2)

/-- Embedding of `poll_wlan_connection_state` (src/wlan.rs): poll the
interface state every `interval_secs` up to `max_wait_secs`, round
numbers running from 1 to `rounds`. -/
def poll_wlan_connection_state (query : Nat → Option WlanState) (iface : Nat)
    (max_wait_secs interval_secs : Nat) : Bool × List Event :=
  pollLoop query iface interval_secs 1 (poll_rounds max_wait_secs interval_secs)

/-- Whether an `Except` is the `ok` case. -/
def okB {α β : Type} : Except α β → Bool
  | Except.ok _ => true
  | Except.error _ => false

/-- An attempt of profile `p` on `iface` succeeds end-to-end when the
connect request is accepted, polling reaches `connected` within the
engine's budget (30 time units, every 2), and the probe reports
reachable. -/
def attemptSucceeds (env : WlanEnv) (iface : Nat) (p : String) : Bool :=
  okB (env.connectAccepted iface p)
    && (poll_wlan_connection_state (env.queryState iface p) iface 30 2).1
    && env.testNetwork iface p

/-- The per-profile loop of `connect_any_saved_wifi`: issue the connect
request (rejection → next profile), poll the state (timeout → next
profile), probe reachability (unreachable → next profile); returns the
restoring profile if any, the updated tried counter and the trace. -/
def tryProfilesLoop (env : WlanEnv) (iface : Nat) (tried : Nat) :
    List String → Option String × Nat × List Event
  | [] => (none, tried, [])
  | p :: rest =>
    match env.connectAccepted iface p with
    | Except.error _ =>
      let r := tryProfilesLoop env iface (tried + 1) rest
      (r.1, r.2.1, Event.connectAttempt iface p :: r.2.2)
    | Except.ok _ =>
      let pr := poll_wlan_connection_state (env.queryState iface p) iface 30 2
      if pr.1 then
        if env.testNetwork iface p then
          (some p, tried + 1, Event.connectAttempt iface p :: (pr.2 ++ [Event.probe iface p]))
        else
          let r := tryProfilesLoop env iface (tried + 1) rest
          (r.1, r.2.1,
            Event.connectAttempt iface p :: (pr.2 ++ Event.probe iface p :: r.2.2))
      else
        let r := tryProfilesLoop env iface (tried + 1) rest
        (r.1, r.2.1, Event.connectAttempt iface p :: (pr.2 ++ r.2.2))

/-- The visible-network step of the per-interface loop: for `ScanOnly`
request a scan, wait the 2 time-unit settle interval, then read the
available networks with `trigger_scan` off (read failure → skip the
interface, encoded as `error ()`); for the other strategies no visible
set is gathered. -/
def availStep (env : WlanEnv) (strategy : ConnectStrategy) (iface : Nat) :
    Except Unit (Option (List String)) × List Event :=
  match strategy with
  | ConnectStrategy.ScanOnly =>
    let g := get_available_network_names env iface false
    match g.1 with
    | Except.error _ => (Except.error (), Event.scan iface :: Event.sleep 2 :: g.2)
    | Except.ok names => (Except.ok (some names), Event.scan iface :: Event.sleep 2 :: g.2)
  | _ => (Except.ok none, [])

/-- The per-interface loop of `connect_any_saved_wifi`: query the saved
profiles (failure → skip interface); gather the visible set per
`availStep` (failure → skip interface); filter the candidates and run
the per-profile loop; on no success continue with the next interface. -/
def ifaceLoop (env : WlanEnv) (strategy : ConnectStrategy) (tried : Nat) :
    List Nat → Option String × Nat × List Event
  | [] => (none, tried, [])
  | iface :: rest =>
    match env.savedProfiles iface with
    | Except.error _ =>
      let r := ifaceLoop env strategy tried rest
      (r.1, r.2.1, Event.getProfileList iface :: r.2.2)
    | Except.ok saved =>
      let av := availStep env strategy iface
      match av.1 with
      | Except.error _ =>
        let r := ifaceLoop env strategy tried rest
        (r.1, r.2.1, Event.getProfileList iface :: (av.2 ++ r.2.2))
      | Except.ok available =>
        let profiles := filter_profiles_by_strategy saved strategy available
        if profiles.isEmpty then
          let r := ifaceLoop env strategy tried rest
          (r.1, r.2.1, Event.getProfileList iface :: (av.2 ++ r.2.2))
        else
          let t := tryProfilesLoop env iface tried profiles
          match t.1 with
          | some p => (some p, t.2.1, Event.getProfileList iface :: (av.2 ++ t.2.2))
          | none =>
            let r := ifaceLoop env strategy t.2.1 rest
            (r.1, r.2.1, Event.getProfileList iface :: (av.2 ++ t.2.2 ++ r.2.2))

/-- The terminal outcome once the interface loop has run: success with
the restoring profile, or exhaustion with the tried counter. -/
def loopOutcome : Option String → Nat → RecoveryOutcome
  | some p, _ => RecoveryOutcome.success p
  | none, tried => RecoveryOutcome.failure FailReason.exhausted tried

/-- The adapter-enable fallback step: when the first enumeration was
empty, invoke `try_enable_wlan_adapter`; on success sleep 3 time units
and re-enumerate once; on failure keep the empty list. -/
def fallbackStep (env : WlanEnv) (ifaces0 : List Nat) :
    Except String (List Nat) × List Event :=
  if ifaces0.isEmpty then
    if env.adapterEnable then
      (env.enumRetry, [Event.adapterEnableAttempt, Event.sleep 3, Event.enumInterfaces])
    else (Except.ok ifaces0, [Event.adapterEnableAttempt])
  else (Except.ok ifaces0, [])

/-- Embedding of `connect_any_saved_wifi` (src/wlan.rs): open the client
(`?` on failure), enumerate interfaces (`?` on failure), run the
adapter-enable fallback when the list is empty, bail with no-interface
if still empty, else run the interface loop and report success or
exhaustion. -/
def connect_any_saved_wifi (env : WlanEnv) (strategy : ConnectStrategy) :
    RecoveryOutcome × List Event :=
  match env.openResult with
  | Except.error e => (RecoveryOutcome.error e, [])
  | Except.ok _ =>
    match env.enumFirst with
    | Except.error e => (RecoveryOutcome.error e, [Event.enumInterfaces])
    | Except.ok ifaces0 =>
      let fb := fallbackStep env ifaces0
      match fb.1 with
      | Except.error e => (RecoveryOutcome.error e, Event.enumInterfaces :: fb.2)
      | Except.ok ifaces =>
        if ifaces.isEmpty then
          (RecoveryOutcome.failure FailReason.noInterface 0, Event.enumInterfaces :: fb.2)
        else
          let r := ifaceLoop env strategy 0 ifaces
          (loopOutcome r.1 r.2.1, Event.enumInterfaces :: (fb.2 ++ r.2.2))

/-- CLI flags relevant to strategy selection (src/main.rs `struct Cli`). -/
structure Cli where
  once : Bool
  interval : Nat
  ncsiUrl : String
  ncsiTimeout : Nat
  all : Bool
  profiles : Option (List String)

/-- Embedding of `Cli::connect_strategy` (src/main.rs): a supplied
non-empty profile list wins, then the `all` flag, else scan-only. -/
def Cli.connect_strategy (cli : Cli) : ConnectStrategy :=
  match cli.profiles with
  | some names =>
    if names.isEmpty then
      if cli.all then ConnectStrategy.All else ConnectStrategy.ScanOnly
    else ConnectStrategy.Explicit names
  | none => if cli.all then ConnectStrategy.All else ConnectStrategy.ScanOnly

/-- The connect attempts recorded in a trace, as (interface, profile)
pairs in order. -/
def attemptsOf (evs : List Event) : List (Nat × String) :=
  evs.filterMap fun e =>
    match e with
    | Event.connectAttempt i p => some (i, p)
    | _ => none

/-- The state-query rounds recorded in a trace, in order. -/
def queriesOf (evs : List Event) : List Nat :=
  evs.filterMap fun e =>
    match e with
    | Event.stateQuery _ r => some r
    | _ => none

/-- Whether an event is an interface enumeration. -/
def isEnumEv : Event → Bool
  | Event.enumInterfaces => true
  | _ => false

/-- Membership formulation of `List.contains` on strings. -/
theorem contains_true_iff_mem (l : List String) (a : String) :
    l.contains a = true ↔ a ∈ l := by
  exact List.elem_iff

/-- Count of an element in a filtered list. -/
theorem count_filter_eq (l : List String) (f : String → Bool) (a : String) :
    (l.filter f).count a = if f a = true then l.count a else 0 := by
  induction l with
  | nil => simp
  | cons b t ih =>
    by_cases hb : f b = true
    · by_cases hab : a = b
      · subst hab
        simp [List.filter_cons, hb, List.count_cons, ih]
      · simp [List.filter_cons, hb, List.count_cons, ih, hab]
    · by_cases hab : a = b
      · subst hab
        simp [List.filter_cons, hb, List.count_cons, ih]
      · simp [List.filter_cons, hb, List.count_cons, ih, hab]

/-- C3: for every saved-profile list, `select` with strategy `ScanOnly`
returns the empty list when no visible set is supplied; with a visible
set it returns exactly the saved profiles whose name is in the visible
set, in the saved list's original order. -/
theorem c3_scanonly_select (saved : List String) :
    filter_profiles_by_strategy saved ConnectStrategy.ScanOnly none = [] ∧
    ∀ avail : List String,
      (filter_profiles_by_strategy saved ConnectStrategy.ScanOnly (some avail)).Sublist saved ∧
      ∀ p, (filter_profiles_by_strategy saved ConnectStrategy.ScanOnly (some avail)).count p =
        if p ∈ avail then saved.count p else 0 := by
  refine ⟨rfl, fun avail => ⟨List.filter_sublist _, fun p => ?_⟩⟩
  show (saved.filter (fun q => avail.contains q)).count p = _
  rw [count_filter_eq]
  by_cases h : p ∈ avail
  · simp [h, (contains_true_iff_mem avail p).mpr h]
  · simp [h, fun hc => h ((contains_true_iff_mem avail p).mp hc)]

/-- C4: for every saved-profile list and name set, `select` with
strategy `Explicit(names)` returns exactly the saved profiles whose
name is in `names`, in the saved list's original order, and is empty
when `names` is empty or disjoint from the saved names. -/
theorem c4_explicit_select (saved names : List String) (avail : Option (List String)) :
    (filter_profiles_by_strategy saved (ConnectStrategy.Explicit names) avail).Sublist saved ∧
    (∀ p, (filter_profiles_by_strategy saved (ConnectStrategy.Explicit names) avail).count p =
      if p ∈ names then saved.count p else 0) ∧
    (names = [] →
      filter_profiles_by_strategy saved (ConnectStrategy.Explicit names) avail = []) ∧
    ((∀ p ∈ saved, p ∉ names) →
      filter_profiles_by_strategy saved (ConnectStrategy.Explicit names) avail = []) := by
  refine ⟨List.filter_sublist _, fun p => ?_, fun h => ?_, fun h => ?_⟩
  · show (saved.filter (fun q => names.contains q)).count p = _
    rw [count_filter_eq]
    by_cases h : p ∈ names
    · simp [h, (contains_true_iff_mem names p).mpr h]
    · simp [h, fun hc => h ((contains_true_iff_mem names p).mp hc)]
  · subst h
    simp [filter_profiles_by_strategy]
  · show saved.filter (fun q => names.contains q) = []
    refine List.filter_eq_nil_iff.mpr fun p hp => ?_
    exact fun hc => h p hp ((contains_true_iff_mem names p).mp hc)

/-- Witness for C4 at a concrete input: an empty explicit name set
yields an empty selection. -/
theorem c4_explicit_select_witness :
    filter_profiles_by_strategy ["a", "b"] (ConnectStrategy.Explicit []) none = [] :=
  (c4_explicit_select ["a", "b"] [] none).2.2.1 rfl

/-- C5: for every saved-profile list, `select` with strategy `All`
returns the full input list unchanged, whether or not a visible set is
supplied. -/
theorem c5_all_select (saved : List String) (avail : Option (List String)) :
    filter_profiles_by_strategy saved ConnectStrategy.All avail = saved := rfl

/-- C10: strategy precedence of the CLI flags: a supplied non-empty
profile list gives `Explicit` (even when `all` is set); otherwise the
`all` flag gives `All`; otherwise (including a supplied empty list)
`ScanOnly`. -/
theorem c10_strategy_precedence (cli : Cli) :
    (∀ names, cli.profiles = some names → names ≠ [] →
      cli.connect_strategy = ConnectStrategy.Explicit names) ∧
    ((cli.profiles = none ∨ cli.profiles = some []) →
      (cli.all = true → cli.connect_strategy = ConnectStrategy.All) ∧
      (cli.all = false → cli.connect_strategy = ConnectStrategy.ScanOnly)) := by
  constructor
  · intro names hp hne
    simp [Cli.connect_strategy, hp, hne]
  · rintro (hp | hp) <;>
      exact ⟨fun ha => by simp [Cli.connect_strategy, hp, ha],
             fun ha => by simp [Cli.connect_strategy, hp, ha]⟩

/-- Witness for C10 at a concrete input: a non-empty profile list beats
the `all` flag. -/
theorem c10_strategy_precedence_witness :
    Cli.connect_strategy
        { once := false, interval := 60, ncsiUrl := "u", ncsiTimeout := 5,
          all := true, profiles := some ["Home"] } =
      ConnectStrategy.Explicit ["Home"] :=
  (c10_strategy_precedence _).1 ["Home"] rfl (by simp)

@[simp]
theorem attemptsOf_nil : attemptsOf [] = [] := rfl

@[simp]
theorem attemptsOf_append (a b : List Event) :
    attemptsOf (a ++ b) = attemptsOf a ++ attemptsOf b :=
  List.filterMap_append a b _

@[simp]
theorem attemptsOf_connect_cons (i : Nat) (p : String) (l : List Event) :
    attemptsOf (Event.connectAttempt i p :: l) = (i, p) :: attemptsOf l := rfl

@[simp]
theorem attemptsOf_sleep_cons (n : Nat) (l : List Event) :
    attemptsOf (Event.sleep n :: l) = attemptsOf l := rfl

@[simp]
theorem attemptsOf_stateQuery_cons (i r : Nat) (l : List Event) :
    attemptsOf (Event.stateQuery i r :: l) = attemptsOf l := rfl

@[simp]
theorem attemptsOf_probe_cons (i : Nat) (p : String) (l : List Event) :
    attemptsOf (Event.probe i p :: l) = attemptsOf l := rfl

@[simp]
theorem attemptsOf_getProfileList_cons (i : Nat) (l : List Event) :
    attemptsOf (Event.getProfileList i :: l) = attemptsOf l := rfl

@[simp]
theorem attemptsOf_scan_cons (i : Nat) (l : List Event) :
    attemptsOf (Event.scan i :: l) = attemptsOf l := rfl

@[simp]
theorem attemptsOf_readAvailableList_cons (i : Nat) (l : List Event) :
    attemptsOf (Event.readAvailableList i :: l) = attemptsOf l := rfl

@[simp]
theorem attemptsOf_enumInterfaces_cons (l : List Event) :
    attemptsOf (Event.enumInterfaces :: l) = attemptsOf l := rfl

@[simp]
theorem attemptsOf_adapter_cons (l : List Event) :
    attemptsOf (Event.adapterEnableAttempt :: l) = attemptsOf l := rfl

@[simp]
theorem queriesOf_nil : queriesOf [] = [] := rfl

@[simp]
theorem queriesOf_sleep_cons (n : Nat) (l : List Event) :
    queriesOf (Event.sleep n :: l) = queriesOf l := rfl

@[simp]
theorem queriesOf_stateQuery_cons (i r : Nat) (l : List Event) :
    queriesOf (Event.stateQuery i r :: l) = r :: queriesOf l := rfl

/-- The polling loop performs no connect attempts. -/
theorem pollLoop_attempts (query : Nat → Option WlanState) (iface interval : Nat) :
    ∀ fuel round, attemptsOf (pollLoop query iface interval round fuel).2 = [] := by
  intro fuel
  induction fuel with
  | zero => intro round; rfl
  | succ n ih =>
    intro round
    by_cases h : query round = some WlanState.connected <;>
      simp [pollLoop, h, ih]

/-- The embedded `poll_wlan_connection_state` performs no connect
attempts. -/
theorem poll_attempts (query : Nat → Option WlanState) (iface mw iv : Nat) :
    attemptsOf (poll_wlan_connection_state query iface mw iv).2 = [] :=
  pollLoop_attempts query iface iv _ 1

/-- The polling loop queries the state at most `fuel` times. -/
theorem pollLoop_queries_le (query : Nat → Option WlanState) (iface interval : Nat) :
    ∀ fuel round, (queriesOf (pollLoop query iface interval round fuel).2).length ≤ fuel := by
  intro fuel
  induction fuel with
  | zero => intro round; simp [pollLoop]
  | succ n ih =>
    intro round
    by_cases h : query round = some WlanState.connected
    · simp [pollLoop, h]
    · simpa [pollLoop, h, Nat.succ_le_succ_iff] using ih (round + 1)

/-- The polling loop returns true exactly when some round in its window
observes the connected state. -/
theorem pollLoop_true_iff (query : Nat → Option WlanState) (iface interval : Nat) :
    ∀ fuel round, (pollLoop query iface interval round fuel).1 = true ↔
      ∃ r, round ≤ r ∧ r < round + fuel ∧ query r = some WlanState.connected := by
  intro fuel
  induction fuel with
  | zero =>
    intro round
    simp only [pollLoop]
    constructor
    · intro h; exact absurd h (by simp)
    · rintro ⟨r, h1, h2, _⟩; omega
  | succ n ih =>
    intro round
    by_cases h : query round = some WlanState.connected
    · constructor
      · intro _; exact ⟨round, Nat.le_refl _, by omega, h⟩
      · intro _; simp [pollLoop, h]
    · have hred : (pollLoop query iface interval round (n + 1)).1
          = (pollLoop query iface interval (round + 1) n).1 := by
        simp [pollLoop, h]
      rw [hred, ih (round + 1)]
      constructor
      · rintro ⟨r, h1, h2, h3⟩; exact ⟨r, by omega, by omega, h3⟩
      · rintro ⟨r, h1, h2, h3⟩
        refine ⟨r, ?_, by omega, h3⟩
        rcases Nat.eq_or_lt_of_le h1 with heq | hlt
        · subst heq; exact absurd h3 h
        · omega

/-- C7: with a positive polling interval the state poll performs at most
`max(budget / interval, 1)` rounds and always terminates, returning true
exactly when some round within the budget observes the connected state
(false otherwise, even if the query always fails); the engine invokes it
with a 30 time-unit budget every 2 time units, i.e. 15 rounds. -/
theorem c7_poll_bounded (query : Nat → Option WlanState) (iface max_wait interval : Nat)
    (hpos : 0 < interval) :
    (queriesOf (poll_wlan_connection_state query iface max_wait interval).2).length ≤
      poll_rounds max_wait interval ∧
    ((poll_wlan_connection_state query iface max_wait interval).1 = true ↔
      ∃ r, 1 ≤ r ∧ r ≤ poll_rounds max_wait interval ∧ query r = some WlanState.connected) ∧
    poll_rounds 30 2 = 15 := by
  refine ⟨pollLoop_queries_le query iface interval _ 1, ?_, by decide⟩
  rw [poll_wlan_connection_state, pollLoop_true_iff]
  constructor
  · rintro ⟨r, h1, h2, h3⟩; exact ⟨r, h1, by omega, h3⟩
  · rintro ⟨r, h1, h2, h3⟩; exact ⟨r, h1, by omega, h3⟩

/-- Witness for C7: a query that never answers makes the poll at the
engine's parameters terminate with false. -/
theorem c7_poll_bounded_witness :
    (poll_wlan_connection_state (fun _ => none) 0 30 2).1 = false := by
  have h := (c7_poll_bounded (fun _ => none) 0 30 2 (by decide)).2.1
  cases hres : (poll_wlan_connection_state (fun _ => none) 0 30 2).1
  · rfl
  · obtain ⟨r, _, _, hr⟩ := h.mp hres
    exact absurd hr (by simp)


/-- Step equation of the per-profile loop: connect request rejected. -/
theorem tryProfilesLoop_cons_reject (env : WlanEnv) (iface tried : Nat) (p : String)
    (rest : List String) (e : String) (hc : env.connectAccepted iface p = Except.error e) :
    tryProfilesLoop env iface tried (p :: rest) =
      ((tryProfilesLoop env iface (tried + 1) rest).1,
       (tryProfilesLoop env iface (tried + 1) rest).2.1,
       Event.connectAttempt iface p :: (tryProfilesLoop env iface (tried + 1) rest).2.2) := by
  simp [tryProfilesLoop, hc]

/-- Step equation of the per-profile loop: connect accepted but polling
times out. -/
theorem tryProfilesLoop_cons_timeout (env : WlanEnv) (iface tried : Nat) (p : String)
    (rest : List String) (u : Unit) (hc : env.connectAccepted iface p = Except.ok u)
    (hp : (poll_wlan_connection_state (env.queryState iface p) iface 30 2).1 = false) :
    tryProfilesLoop env iface tried (p :: rest) =
      ((tryProfilesLoop env iface (tried + 1) rest).1,
       (tryProfilesLoop env iface (tried + 1) rest).2.1,
       Event.connectAttempt iface p ::
         ((poll_wlan_connection_state (env.queryState iface p) iface 30 2).2 ++
           (tryProfilesLoop env iface (tried + 1) rest).2.2)) := by
  simp [tryProfilesLoop, hc, hp]

/-- Step equation of the per-profile loop: connected but the probe
reports unreachable. -/
theorem tryProfilesLoop_cons_unreachable (env : WlanEnv) (iface tried : Nat) (p : String)
    (rest : List String) (u : Unit) (hc : env.connectAccepted iface p = Except.ok u)
    (hp : (poll_wlan_connection_state (env.queryState iface p) iface 30 2).1 = true)
    (ht : env.testNetwork iface p = false) :
    tryProfilesLoop env iface tried (p :: rest) =
      ((tryProfilesLoop env iface (tried + 1) rest).1,
       (tryProfilesLoop env iface (tried + 1) rest).2.1,
       Event.connectAttempt iface p ::
         ((poll_wlan_connection_state (env.queryState iface p) iface 30 2).2 ++
           Event.probe iface p :: (tryProfilesLoop env iface (tried + 1) rest).2.2)) := by
  simp [tryProfilesLoop, hc, hp, ht]

/-- Step equation of the per-profile loop: the attempt restores the
network. -/
theorem tryProfilesLoop_cons_success (env : WlanEnv) (iface tried : Nat) (p : String)
    (rest : List String) (u : Unit) (hc : env.connectAccepted iface p = Except.ok u)
    (hp : (poll_wlan_connection_state (env.queryState iface p) iface 30 2).1 = true)
    (ht : env.testNetwork iface p = true) :
    tryProfilesLoop env iface tried (p :: rest) =
      (some p, tried + 1,
       Event.connectAttempt iface p ::
         ((poll_wlan_connection_state (env.queryState iface p) iface 30 2).2 ++
           [Event.probe iface p])) := by
  simp [tryProfilesLoop, hc, hp, ht]

/-- Every connect attempt recorded by the per-profile loop is on the
loop's own interface. -/
theorem tryProfilesLoop_iface (env : WlanEnv) (iface : Nat) :
    ∀ ps tried j q, (j, q) ∈ attemptsOf (tryProfilesLoop env iface tried ps).2.2 →
      j = iface := by
  intro ps
  induction ps with
  | nil => intro tried j q h; simp [tryProfilesLoop] at h
  | cons p rest ih =>
    intro tried j q h
    rcases hc : env.connectAccepted iface p with e | u
    · rw [tryProfilesLoop_cons_reject env iface tried p rest e hc] at h
      simp only [attemptsOf_connect_cons, List.mem_cons] at h
      rcases h with h | h
      · exact (Prod.ext_iff.mp h).1
      · exact ih _ j q h
    · cases hp : (poll_wlan_connection_state (env.queryState iface p) iface 30 2).1 with
      | false =>
        rw [tryProfilesLoop_cons_timeout env iface tried p rest u hc hp] at h
        simp only [attemptsOf_connect_cons, attemptsOf_append, poll_attempts,
          List.nil_append, List.mem_cons] at h
        rcases h with h | h
        · exact (Prod.ext_iff.mp h).1
        · exact ih _ j q h
      | true =>
        cases ht : env.testNetwork iface p with
        | false =>
          rw [tryProfilesLoop_cons_unreachable env iface tried p rest u hc hp ht] at h
          simp only [attemptsOf_connect_cons, attemptsOf_append, poll_attempts,
            attemptsOf_probe_cons, List.nil_append, List.mem_cons] at h
          rcases h with h | h
          · exact (Prod.ext_iff.mp h).1
          · exact ih _ j q h
        | true =>
          rw [tryProfilesLoop_cons_success env iface tried p rest u hc hp ht] at h
          simp only [attemptsOf_connect_cons, attemptsOf_append, poll_attempts,
            attemptsOf_probe_cons, attemptsOf_nil, List.nil_append, List.mem_cons,
            List.not_mem_nil, or_false] at h
          exact (Prod.ext_iff.mp h).1

/-- The tried counter after the per-profile loop is its initial value
plus the number of connect attempts recorded in the trace. -/
theorem tryProfilesLoop_tried (env : WlanEnv) (iface : Nat) :
    ∀ ps tried, (tryProfilesLoop env iface tried ps).2.1 =
      tried + (attemptsOf (tryProfilesLoop env iface tried ps).2.2).length := by
  intro ps
  induction ps with
  | nil => intro tried; simp [tryProfilesLoop]
  | cons p rest ih =>
    intro tried
    rcases hc : env.connectAccepted iface p with e | u
    · rw [tryProfilesLoop_cons_reject env iface tried p rest e hc]
      simp only [attemptsOf_connect_cons, List.length_cons]
      rw [ih (tried + 1)]
      omega
    · cases hp : (poll_wlan_connection_state (env.queryState iface p) iface 30 2).1 with
      | false =>
        rw [tryProfilesLoop_cons_timeout env iface tried p rest u hc hp]
        simp only [attemptsOf_connect_cons, attemptsOf_append, poll_attempts,
          List.nil_append, List.length_cons]
        rw [ih (tried + 1)]
        omega
      | true =>
        cases ht : env.testNetwork iface p with
        | false =>
          rw [tryProfilesLoop_cons_unreachable env iface tried p rest u hc hp ht]
          simp only [attemptsOf_connect_cons, attemptsOf_append, poll_attempts,
            attemptsOf_probe_cons, List.nil_append, List.length_cons]
          rw [ih (tried + 1)]
          omega
        | true =>
          rw [tryProfilesLoop_cons_success env iface tried p rest u hc hp ht]
          simp only [attemptsOf_connect_cons, attemptsOf_append, poll_attempts,
            attemptsOf_probe_cons, attemptsOf_nil, List.nil_append, List.length_cons,
            List.length_nil]

/-- When the per-profile loop reports a restoring profile, that profile
was attempted and its attempt succeeded end-to-end. -/
theorem tryProfilesLoop_some (env : WlanEnv) (iface : Nat) :
    ∀ ps tried p, (tryProfilesLoop env iface tried ps).1 = some p →
      (iface, p) ∈ attemptsOf (tryProfilesLoop env iface tried ps).2.2 ∧
        attemptSucceeds env iface p = true := by
  intro ps
  induction ps with
  | nil => intro tried p h; simp [tryProfilesLoop] at h
  | cons q rest ih =>
    intro tried p h
    rcases hc : env.connectAccepted iface q with e | u
    · rw [tryProfilesLoop_cons_reject env iface tried q rest e hc] at h ⊢
      obtain ⟨hm, hs⟩ := ih _ p h
      exact ⟨List.mem_cons_of_mem _ hm, hs⟩
    · cases hp : (poll_wlan_connection_state (env.queryState iface q) iface 30 2).1 with
      | false =>
        rw [tryProfilesLoop_cons_timeout env iface tried q rest u hc hp] at h ⊢
        obtain ⟨hm, hs⟩ := ih _ p h
        refine ⟨?_, hs⟩
        simp only [attemptsOf_connect_cons, attemptsOf_append, poll_attempts,
          List.nil_append]
        exact List.mem_cons_of_mem _ hm
      | true =>
        cases ht : env.testNetwork iface q with
        | false =>
          rw [tryProfilesLoop_cons_unreachable env iface tried q rest u hc hp ht] at h ⊢
          obtain ⟨hm, hs⟩ := ih _ p h
          refine ⟨?_, hs⟩
          simp only [attemptsOf_connect_cons, attemptsOf_append, poll_attempts,
            attemptsOf_probe_cons, List.nil_append]
          exact List.mem_cons_of_mem _ hm
        | true =>
          rw [tryProfilesLoop_cons_success env iface tried q rest u hc hp ht] at h ⊢
          obtain rfl : q = p := by simpa using h
          refine ⟨?_, ?_⟩
          · simp only [attemptsOf_connect_cons, List.mem_cons]
            exact Or.inl trivial
          · simp [attemptSucceeds, okB, hc, hp, ht]

/-- When an attempt recorded by the per-profile loop succeeds
end-to-end, the loop reports exactly that profile and records no
attempt after it. -/
theorem tryProfilesLoop_succ (env : WlanEnv) (iface : Nat) :
    ∀ ps tried p, (iface, p) ∈ attemptsOf (tryProfilesLoop env iface tried ps).2.2 →
      attemptSucceeds env iface p = true →
      (tryProfilesLoop env iface tried ps).1 = some p ∧
        ∃ pre, attemptsOf (tryProfilesLoop env iface tried ps).2.2 = pre ++ [(iface, p)] := by
  intro ps
  induction ps with
  | nil => intro tried p h _; simp [tryProfilesLoop] at h
  | cons q rest ih =>
    intro tried p hmem hsucc
    rcases hc : env.connectAccepted iface q with e | u
    · rw [tryProfilesLoop_cons_reject env iface tried q rest e hc] at hmem ⊢
      simp only [attemptsOf_connect_cons, List.mem_cons] at hmem
      rcases hmem with heq | hmem
      · obtain rfl : p = q := (Prod.ext_iff.mp heq).2
        simp [attemptSucceeds, okB, hc] at hsucc
      · obtain ⟨h1, pre, h2⟩ := ih _ p hmem hsucc
        exact ⟨h1, (iface, q) :: pre, by simp [h2]⟩
    · cases hp : (poll_wlan_connection_state (env.queryState iface q) iface 30 2).1 with
      | false =>
        rw [tryProfilesLoop_cons_timeout env iface tried q rest u hc hp] at hmem ⊢
        simp only [attemptsOf_connect_cons, attemptsOf_append, poll_attempts,
          List.nil_append, List.mem_cons] at hmem
        rcases hmem with heq | hmem
        · obtain rfl : p = q := (Prod.ext_iff.mp heq).2
          simp [attemptSucceeds, okB, hc, hp] at hsucc
        · obtain ⟨h1, pre, h2⟩ := ih _ p hmem hsucc
          refine ⟨h1, (iface, q) :: pre, ?_⟩
          simp only [attemptsOf_connect_cons, attemptsOf_append, poll_attempts,
            List.nil_append, h2, List.cons_append]
      | true =>
        cases ht : env.testNetwork iface q with
        | false =>
          rw [tryProfilesLoop_cons_unreachable env iface tried q rest u hc hp ht] at hmem ⊢
          simp only [attemptsOf_connect_cons, attemptsOf_append, poll_attempts,
            attemptsOf_probe_cons, List.nil_append, List.mem_cons] at hmem
          rcases hmem with heq | hmem
          · obtain rfl : p = q := (Prod.ext_iff.mp heq).2
            simp [attemptSucceeds, okB, hc, hp, ht] at hsucc
          · obtain ⟨h1, pre, h2⟩ := ih _ p hmem hsucc
            refine ⟨h1, (iface, q) :: pre, ?_⟩
            simp only [attemptsOf_connect_cons, attemptsOf_append, poll_attempts,
              attemptsOf_probe_cons, List.nil_append, h2, List.cons_append]
        | true =>
          rw [tryProfilesLoop_cons_success env iface tried q rest u hc hp ht] at hmem ⊢
          simp only [attemptsOf_connect_cons, attemptsOf_append, poll_attempts,
            attemptsOf_probe_cons, attemptsOf_nil, List.nil_append, List.mem_cons,
            List.not_mem_nil, or_false] at hmem
          obtain rfl : p = q := (Prod.ext_iff.mp hmem).2
          refine ⟨rfl, [], ?_⟩
          simp only [attemptsOf_connect_cons, attemptsOf_append, poll_attempts,
            attemptsOf_probe_cons, attemptsOf_nil, List.nil_append, List.append_nil]

/-- The visible-network step performs no connect attempts. -/
theorem availStep_attempts (env : WlanEnv) (strategy : ConnectStrategy) (iface : Nat) :
    attemptsOf (availStep env strategy iface).2 = [] := by
  cases strategy with
  | ScanOnly =>
    rcases h : env.availableNetworkList iface with e | nets <;>
      simp [availStep, get_available_network_names, h]
  | All => rfl
  | Explicit names => rfl

/-- Step equation of the per-interface loop: saved-profile query
fails, the interface is skipped. -/
theorem ifaceLoop_cons_profileErr (env : WlanEnv) (strategy : ConnectStrategy)
    (tried i : Nat) (rest : List Nat) (e : String)
    (hs : env.savedProfiles i = Except.error e) :
    ifaceLoop env strategy tried (i :: rest) =
      ((ifaceLoop env strategy tried rest).1,
       (ifaceLoop env strategy tried rest).2.1,
       Event.getProfileList i :: (ifaceLoop env strategy tried rest).2.2) := by
  simp [ifaceLoop, hs]

/-- Step equation of the per-interface loop: visible-network query
fails, the interface is skipped. -/
theorem ifaceLoop_cons_availErr (env : WlanEnv) (strategy : ConnectStrategy)
    (tried i : Nat) (rest : List Nat) (saved : List String) (u : Unit)
    (hs : env.savedProfiles i = Except.ok saved)
    (hav : (availStep env strategy i).1 = Except.error u) :
    ifaceLoop env strategy tried (i :: rest) =
      ((ifaceLoop env strategy tried rest).1,
       (ifaceLoop env strategy tried rest).2.1,
       Event.getProfileList i ::
         ((availStep env strategy i).2 ++ (ifaceLoop env strategy tried rest).2.2)) := by
  simp [ifaceLoop, hs, hav]

/-- Step equation of the per-interface loop: no candidate profiles
after filtering, the interface is skipped. -/
theorem ifaceLoop_cons_empty (env : WlanEnv) (strategy : ConnectStrategy)
    (tried i : Nat) (rest : List Nat) (saved : List String)
    (available : Option (List String))
    (hs : env.savedProfiles i = Except.ok saved)
    (hav : (availStep env strategy i).1 = Except.ok available)
    (he : (filter_profiles_by_strategy saved strategy available).isEmpty = true) :
    ifaceLoop env strategy tried (i :: rest) =
      ((ifaceLoop env strategy tried rest).1,
       (ifaceLoop env strategy tried rest).2.1,
       Event.getProfileList i ::
         ((availStep env strategy i).2 ++ (ifaceLoop env strategy tried rest).2.2)) := by
  simp [ifaceLoop, hs, hav, he]

/-- Step equation of the per-interface loop: a candidate profile on
this interface restores the network. -/
theorem ifaceLoop_cons_found (env : WlanEnv) (strategy : ConnectStrategy)
    (tried i : Nat) (rest : List Nat) (saved : List String)
    (available : Option (List String)) (p : String)
    (hs : env.savedProfiles i = Except.ok saved)
    (hav : (availStep env strategy i).1 = Except.ok available)
    (he : (filter_profiles_by_strategy saved strategy available).isEmpty = false)
    (hf : (tryProfilesLoop env i tried (filter_profiles_by_strategy saved strategy available)).1
      = some p) :
    ifaceLoop env strategy tried (i :: rest) =
      (some p,
       (tryProfilesLoop env i tried (filter_profiles_by_strategy saved strategy available)).2.1,
       Event.getProfileList i ::
         ((availStep env strategy i).2 ++
           (tryProfilesLoop env i tried
             (filter_profiles_by_strategy saved strategy available)).2.2)) := by
  simp [ifaceLoop, hs, hav, he, hf]

/-- Step equation of the per-interface loop: every candidate on this
interface fails, the loop continues with the next interface. -/
theorem ifaceLoop_cons_notFound (env : WlanEnv) (strategy : ConnectStrategy)
    (tried i : Nat) (rest : List Nat) (saved : List String)
    (available : Option (List String))
    (hs : env.savedProfiles i = Except.ok saved)
    (hav : (availStep env strategy i).1 = Except.ok available)
    (he : (filter_profiles_by_strategy saved strategy available).isEmpty = false)
    (hf : (tryProfilesLoop env i tried (filter_profiles_by_strategy saved strategy available)).1
      = none) :
    ifaceLoop env strategy tried (i :: rest) =
      ((ifaceLoop env strategy
          (tryProfilesLoop env i tried
            (filter_profiles_by_strategy saved strategy available)).2.1 rest).1,
       (ifaceLoop env strategy
          (tryProfilesLoop env i tried
            (filter_profiles_by_strategy saved strategy available)).2.1 rest).2.1,
       Event.getProfileList i ::
         ((availStep env strategy i).2 ++
           (tryProfilesLoop env i tried
             (filter_profiles_by_strategy saved strategy available)).2.2 ++
           (ifaceLoop env strategy
             (tryProfilesLoop env i tried
               (filter_profiles_by_strategy saved strategy available)).2.1 rest).2.2)) := by
  simp [ifaceLoop, hs, hav, he, hf]

/-- The tried counter after the per-interface loop is its initial value
plus the number of connect attempts recorded in the trace. -/
theorem ifaceLoop_tried (env : WlanEnv) (strategy : ConnectStrategy) :
    ∀ ifs tried, (ifaceLoop env strategy tried ifs).2.1 =
      tried + (attemptsOf (ifaceLoop env strategy tried ifs).2.2).length := by
  intro ifs
  induction ifs with
  | nil => intro tried; simp [ifaceLoop]
  | cons i rest ih =>
    intro tried
    rcases hs : env.savedProfiles i with e | saved
    · rw [ifaceLoop_cons_profileErr env strategy tried i rest e hs]
      simp only [attemptsOf_getProfileList_cons]
      exact ih tried
    · rcases hav : (availStep env strategy i).1 with u | available
      · rw [ifaceLoop_cons_availErr env strategy tried i rest saved u hs hav]
        simp only [attemptsOf_getProfileList_cons, attemptsOf_append, availStep_attempts,
          List.nil_append]
        exact ih tried
      · cases he : (filter_profiles_by_strategy saved strategy available).isEmpty with
        | true =>
          rw [ifaceLoop_cons_empty env strategy tried i rest saved available hs hav he]
          simp only [attemptsOf_getProfileList_cons, attemptsOf_append, availStep_attempts,
            List.nil_append]
          exact ih tried
        | false =>
          rcases hf : (tryProfilesLoop env i tried
              (filter_profiles_by_strategy saved strategy available)).1 with _ | p
          · rw [ifaceLoop_cons_notFound env strategy tried i rest saved available hs hav he hf]
            simp only [attemptsOf_getProfileList_cons, attemptsOf_append, availStep_attempts,
              List.nil_append, List.length_append]
            rw [ih, tryProfilesLoop_tried]
            omega
          · rw [ifaceLoop_cons_found env strategy tried i rest saved available p hs hav he hf]
            simp only [attemptsOf_getProfileList_cons, attemptsOf_append, availStep_attempts,
              List.nil_append]
            exact tryProfilesLoop_tried env i _ tried

/-- When the per-interface loop reports a restoring profile, some
recorded attempt of that profile succeeded end-to-end. -/
theorem ifaceLoop_some (env : WlanEnv) (strategy : ConnectStrategy) :
    ∀ ifs tried p, (ifaceLoop env strategy tried ifs).1 = some p →
      ∃ i, (i, p) ∈ attemptsOf (ifaceLoop env strategy tried ifs).2.2 ∧
        attemptSucceeds env i p = true := by
  intro ifs
  induction ifs with
  | nil => intro tried p h; simp [ifaceLoop] at h
  | cons i rest ih =>
    intro tried p h
    rcases hs : env.savedProfiles i with e | saved
    · rw [ifaceLoop_cons_profileErr env strategy tried i rest e hs] at h ⊢
      obtain ⟨j, hm, hsucc⟩ := ih tried p h
      exact ⟨j, by simpa using hm, hsucc⟩
    · rcases hav : (availStep env strategy i).1 with u | available
      · rw [ifaceLoop_cons_availErr env strategy tried i rest saved u hs hav] at h ⊢
        obtain ⟨j, hm, hsucc⟩ := ih tried p h
        refine ⟨j, ?_, hsucc⟩
        simp only [attemptsOf_getProfileList_cons, attemptsOf_append, availStep_attempts,
          List.nil_append]
        exact hm
      · cases he : (filter_profiles_by_strategy saved strategy available).isEmpty with
        | true =>
          rw [ifaceLoop_cons_empty env strategy tried i rest saved available hs hav he] at h ⊢
          obtain ⟨j, hm, hsucc⟩ := ih tried p h
          refine ⟨j, ?_, hsucc⟩
          simp only [attemptsOf_getProfileList_cons, attemptsOf_append, availStep_attempts,
            List.nil_append]
          exact hm
        | false =>
          rcases hf : (tryProfilesLoop env i tried
              (filter_profiles_by_strategy saved strategy available)).1 with _ | q
          · rw [ifaceLoop_cons_notFound env strategy tried i rest saved available
              hs hav he hf] at h ⊢
            obtain ⟨j, hm, hsucc⟩ := ih _ p h
            refine ⟨j, ?_, hsucc⟩
            simp only [attemptsOf_getProfileList_cons, attemptsOf_append, availStep_attempts,
              List.nil_append, List.mem_append]
            exact Or.inr hm
          · rw [ifaceLoop_cons_found env strategy tried i rest saved available q
              hs hav he hf] at h ⊢
            have hqp : q = p := by simpa using h
            subst hqp
            obtain ⟨hm, hsucc⟩ := tryProfilesLoop_some env i _ tried q hf
            refine ⟨i, ?_, hsucc⟩
            simp only [attemptsOf_getProfileList_cons, attemptsOf_append, availStep_attempts,
              List.nil_append]
            exact hm

/-- When an attempt recorded by the per-interface loop succeeds
end-to-end, the loop reports exactly that profile and records no
attempt after it. -/
theorem ifaceLoop_succ (env : WlanEnv) (strategy : ConnectStrategy) :
    ∀ ifs tried i p, (i, p) ∈ attemptsOf (ifaceLoop env strategy tried ifs).2.2 →
      attemptSucceeds env i p = true →
      (ifaceLoop env strategy tried ifs).1 = some p ∧
        ∃ pre, attemptsOf (ifaceLoop env strategy tried ifs).2.2 = pre ++ [(i, p)] := by
  intro ifs
  induction ifs with
  | nil => intro tried i p h _; simp [ifaceLoop] at h
  | cons i0 rest ih =>
    intro tried i p hmem hsucc
    rcases hs : env.savedProfiles i0 with e | saved
    · rw [ifaceLoop_cons_profileErr env strategy tried i0 rest e hs] at hmem ⊢
      simp only [attemptsOf_getProfileList_cons] at hmem ⊢
      exact ih tried i p hmem hsucc
    · rcases hav : (availStep env strategy i0).1 with u | available
      · rw [ifaceLoop_cons_availErr env strategy tried i0 rest saved u hs hav] at hmem ⊢
        simp only [attemptsOf_getProfileList_cons, attemptsOf_append, availStep_attempts,
          List.nil_append] at hmem ⊢
        exact ih tried i p hmem hsucc
      · cases he : (filter_profiles_by_strategy saved strategy available).isEmpty with
        | true =>
          rw [ifaceLoop_cons_empty env strategy tried i0 rest saved available hs hav he]
            at hmem ⊢
          simp only [attemptsOf_getProfileList_cons, attemptsOf_append, availStep_attempts,
            List.nil_append] at hmem ⊢
          exact ih tried i p hmem hsucc
        | false =>
          rcases hf : (tryProfilesLoop env i0 tried
              (filter_profiles_by_strategy saved strategy available)).1 with _ | q
          · rw [ifaceLoop_cons_notFound env strategy tried i0 rest saved available
              hs hav he hf] at hmem ⊢
            simp only [attemptsOf_getProfileList_cons, attemptsOf_append, availStep_attempts,
              List.nil_append, List.mem_append] at hmem ⊢
            rcases hmem with hmem | hmem
            · obtain rfl : i = i0 := tryProfilesLoop_iface env i0 _ tried i p hmem
              obtain ⟨hfound, _⟩ := tryProfilesLoop_succ env i _ tried p hmem hsucc
              rw [hfound] at hf
              exact absurd hf (by simp)
            · obtain ⟨h1, pre, h2⟩ := ih _ i p hmem hsucc
              refine ⟨h1, attemptsOf (tryProfilesLoop env i0 tried
                (filter_profiles_by_strategy saved strategy available)).2.2 ++ pre, ?_⟩
              rw [h2, List.append_assoc]
          · rw [ifaceLoop_cons_found env strategy tried i0 rest saved available q
              hs hav he hf] at hmem ⊢
            simp only [attemptsOf_getProfileList_cons, attemptsOf_append, availStep_attempts,
              List.nil_append] at hmem ⊢
            obtain rfl : i = i0 := tryProfilesLoop_iface env i0 _ tried i p hmem
            obtain ⟨hfound, pre, h2⟩ := tryProfilesLoop_succ env i _ tried p hmem hsucc
            rw [hfound] at hf
            obtain rfl : q = p := by simpa using hf.symm
            exact ⟨rfl, pre, h2⟩

/-- Engine equation: non-empty first enumeration goes straight to the
interface loop. -/
theorem engine_nonempty (env : WlanEnv) (strategy : ConnectStrategy) (ifaces0 : List Nat)
    (hopen : env.openResult = Except.ok ())
    (henum : env.enumFirst = Except.ok ifaces0)
    (hne : ifaces0.isEmpty = false) :
    connect_any_saved_wifi env strategy =
      (loopOutcome (ifaceLoop env strategy 0 ifaces0).1 (ifaceLoop env strategy 0 ifaces0).2.1,
       Event.enumInterfaces :: (ifaceLoop env strategy 0 ifaces0).2.2) := by
  simp [connect_any_saved_wifi, hopen, henum, fallbackStep, hne]

/-- Engine equation: empty first enumeration, adapter enable succeeds
and the retry enumeration is non-empty. -/
theorem engine_fallback_retry (env : WlanEnv) (strategy : ConnectStrategy) (ifaces : List Nat)
    (hopen : env.openResult = Except.ok ())
    (henum : env.enumFirst = Except.ok [])
    (hen : env.adapterEnable = true)
    (hretry : env.enumRetry = Except.ok ifaces)
    (hne : ifaces.isEmpty = false) :
    connect_any_saved_wifi env strategy =
      (loopOutcome (ifaceLoop env strategy 0 ifaces).1 (ifaceLoop env strategy 0 ifaces).2.1,
       Event.enumInterfaces :: Event.adapterEnableAttempt :: Event.sleep 3 ::
         Event.enumInterfaces :: (ifaceLoop env strategy 0 ifaces).2.2) := by
  simp [connect_any_saved_wifi, hopen, henum, fallbackStep, hen, hretry, hne]

/-- C1: whenever an attempt recorded during a pass succeeds end-to-end
(connect accepted, state reaches connected within the polling budget,
probe reachable), the pass terminates with success carrying that
profile, and that attempt is the last one recorded — no profile after
it is attempted. -/
theorem c1_first_success_wins (env : WlanEnv) (strategy : ConnectStrategy) (i : Nat) (p : String)
    (hmem : (i, p) ∈ attemptsOf (connect_any_saved_wifi env strategy).2)
    (hsucc : attemptSucceeds env i p = true) :
    (connect_any_saved_wifi env strategy).1 = RecoveryOutcome.success p ∧
      ∃ pre, attemptsOf (connect_any_saved_wifi env strategy).2 = pre ++ [(i, p)] := by
  rcases ho : env.openResult with e | u
  · simp [connect_any_saved_wifi, ho, attemptsOf] at hmem
  · cases u
    rcases he : env.enumFirst with e | ifaces0
    · simp [connect_any_saved_wifi, ho, he, attemptsOf] at hmem
    · cases hne : ifaces0.isEmpty with
      | false =>
        have heq := engine_nonempty env strategy ifaces0 ho he hne
        rw [heq] at hmem ⊢
        simp only [attemptsOf_enumInterfaces_cons] at hmem ⊢
        obtain ⟨hfound, pre, h2⟩ := ifaceLoop_succ env strategy ifaces0 0 i p hmem hsucc
        exact ⟨by simp [loopOutcome, hfound], pre, h2⟩
      | true =>
        have hnil : ifaces0 = [] := by
          cases ifaces0 with
          | nil => rfl
          | cons a l => simp at hne
        subst hnil
        cases hen : env.adapterEnable with
        | false =>
          simp [connect_any_saved_wifi, ho, he, fallbackStep, hen, attemptsOf] at hmem
        | true =>
          rcases hr : env.enumRetry with e | ifaces
          · simp [connect_any_saved_wifi, ho, he, fallbackStep, hen, hr, attemptsOf] at hmem
          · cases hner : ifaces.isEmpty with
            | true =>
              simp [connect_any_saved_wifi, ho, he, fallbackStep, hen, hr, hner,
                attemptsOf] at hmem
            | false =>
              have heq := engine_fallback_retry env strategy ifaces ho he hen hr hner
              rw [heq] at hmem ⊢
              simp only [attemptsOf_enumInterfaces_cons, attemptsOf_adapter_cons,
                attemptsOf_sleep_cons] at hmem ⊢
              obtain ⟨hfound, pre, h2⟩ := ifaceLoop_succ env strategy ifaces 0 i p hmem hsucc
              exact ⟨by simp [loopOutcome, hfound], pre, h2⟩

/-- Environment for the C1 witness: one interface, one saved profile
whose attempt succeeds immediately. -/
def envSuccess : WlanEnv where
  openResult := Except.ok ()
  enumFirst := Except.ok [0]
  adapterEnable := false
  enumRetry := Except.ok []
  savedProfiles := fun _ => Except.ok ["A"]
  availableNetworkList := fun _ => Except.ok []
  connectAccepted := fun _ _ => Except.ok ()
  queryState := fun _ _ _ => some WlanState.connected
  testNetwork := fun _ _ => true

/-- Witness for C1: in `envSuccess` the single attempt succeeds, so the
pass reports success with that profile and it is the last attempt. -/
theorem c1_first_success_wins_witness :
    (connect_any_saved_wifi envSuccess ConnectStrategy.All).1 =
      RecoveryOutcome.success "A" ∧
      ∃ pre, attemptsOf (connect_any_saved_wifi envSuccess ConnectStrategy.All).2 =
        pre ++ [(0, "A")] :=
  c1_first_success_wins envSuccess ConnectStrategy.All 0 "A" (by decide) (by decide)

/-- C2: when the pass reaches the interface loop (directly or through a
successful adapter fallback) and every attempted profile fails
end-to-end, the pass terminates with a failure carrying the exhaustion
reason and the number of profiles attempted. -/
theorem c2_exhaustion (env : WlanEnv) (strategy : ConnectStrategy) (ifaces : List Nat)
    (hopen : env.openResult = Except.ok ())
    (henum : env.enumFirst = Except.ok ifaces ∨
      (env.enumFirst = Except.ok [] ∧ env.adapterEnable = true ∧
        env.enumRetry = Except.ok ifaces))
    (hne : ifaces ≠ [])
    (hfail : ∀ i p, (i, p) ∈ attemptsOf (connect_any_saved_wifi env strategy).2 →
      attemptSucceeds env i p = false) :
    (connect_any_saved_wifi env strategy).1 =
      RecoveryOutcome.failure FailReason.exhausted
        (attemptsOf (connect_any_saved_wifi env strategy).2).length := by
  have hne' : ifaces.isEmpty = false := by
    cases ifaces with
    | nil => exact absurd rfl hne
    | cons a l => rfl
  have heq : connect_any_saved_wifi env strategy =
      (loopOutcome (ifaceLoop env strategy 0 ifaces).1 (ifaceLoop env strategy 0 ifaces).2.1,
       Event.enumInterfaces :: (ifaceLoop env strategy 0 ifaces).2.2) ∨
      connect_any_saved_wifi env strategy =
      (loopOutcome (ifaceLoop env strategy 0 ifaces).1 (ifaceLoop env strategy 0 ifaces).2.1,
       Event.enumInterfaces :: Event.adapterEnableAttempt :: Event.sleep 3 ::
         Event.enumInterfaces :: (ifaceLoop env strategy 0 ifaces).2.2) := by
    rcases henum with h | ⟨h0, hen, hr⟩
    · exact Or.inl (engine_nonempty env strategy ifaces hopen h hne')
    · exact Or.inr (engine_fallback_retry env strategy ifaces hopen h0 hen hr hne')
  have hloopnone : (ifaceLoop env strategy 0 ifaces).1 = none := by
    rcases hfound : (ifaceLoop env strategy 0 ifaces).1 with _ | p
    · rfl
    · obtain ⟨j, hm, hsucc⟩ := ifaceLoop_some env strategy ifaces 0 p hfound
      have hmem' : (j, p) ∈ attemptsOf (connect_any_saved_wifi env strategy).2 := by
        rcases heq with h | h <;> rw [h] <;> simpa using hm
      rw [hfail j p hmem'] at hsucc
      exact absurd hsucc (by simp)
  rcases heq with h | h <;> rw [h] <;>
    simp only [attemptsOf_enumInterfaces_cons, attemptsOf_adapter_cons,
      attemptsOf_sleep_cons, hloopnone, loopOutcome,
      ifaceLoop_tried env strategy ifaces 0, Nat.zero_add]

/-- Environment for the C2 witness: one interface, one saved profile,
every connect request rejected. -/
def envExhaust : WlanEnv where
  openResult := Except.ok ()
  enumFirst := Except.ok [0]
  adapterEnable := false
  enumRetry := Except.ok []
  savedProfiles := fun _ => Except.ok ["A"]
  availableNetworkList := fun _ => Except.ok []
  connectAccepted := fun _ _ => Except.error "busy"
  queryState := fun _ _ _ => none
  testNetwork := fun _ _ => false

/-- Witness for C2: in `envExhaust` the sole attempt fails, so the pass
reports exhaustion carrying the attempted count. -/
theorem c2_exhaustion_witness :
    (connect_any_saved_wifi envExhaust ConnectStrategy.All).1 =
      RecoveryOutcome.failure FailReason.exhausted
        (attemptsOf (connect_any_saved_wifi envExhaust ConnectStrategy.All).2).length :=
  c2_exhaustion envExhaust ConnectStrategy.All [0] rfl (Or.inl rfl) (by simp)
    (by
      intro i p h
      have htr : attemptsOf (connect_any_saved_wifi envExhaust ConnectStrategy.All).2 =
          [(0, "A")] := by decide
      rw [htr] at h
      simp only [List.mem_singleton, Prod.mk.injEq] at h
      obtain ⟨rfl, rfl⟩ := h
      decide)

/-- An event satisfies `isEnumEv` exactly when it is the interface
enumeration event. -/
theorem isEnumEv_iff (e : Event) : isEnumEv e = true ↔ e = Event.enumInterfaces := by
  cases e <;> simp [isEnumEv]

/-- The polling loop performs no interface enumeration. -/
theorem pollLoop_no_enum (query : Nat → Option WlanState) (iface interval : Nat) :
    ∀ fuel round, Event.enumInterfaces ∉ (pollLoop query iface interval round fuel).2 := by
  intro fuel
  induction fuel with
  | zero => intro round; simp [pollLoop]
  | succ n ih =>
    intro round
    by_cases h : query round = some WlanState.connected <;>
      simp [pollLoop, h, ih (round + 1)]

/-- The embedded state poll performs no interface enumeration. -/
theorem poll_no_enum (query : Nat → Option WlanState) (iface mw iv : Nat) :
    Event.enumInterfaces ∉ (poll_wlan_connection_state query iface mw iv).2 :=
  pollLoop_no_enum query iface iv _ 1

/-- The per-profile loop performs no interface enumeration. -/
theorem tryProfilesLoop_no_enum (env : WlanEnv) (iface : Nat) :
    ∀ ps tried, Event.enumInterfaces ∉ (tryProfilesLoop env iface tried ps).2.2 := by
  intro ps
  induction ps with
  | nil => intro tried; simp [tryProfilesLoop]
  | cons p rest ih =>
    intro tried
    rcases hc : env.connectAccepted iface p with e | u
    · rw [tryProfilesLoop_cons_reject env iface tried p rest e hc]
      simp [ih (tried + 1)]
    · cases hp : (poll_wlan_connection_state (env.queryState iface p) iface 30 2).1 with
      | false =>
        rw [tryProfilesLoop_cons_timeout env iface tried p rest u hc hp]
        simp [List.mem_append, poll_no_enum (env.queryState iface p) iface 30 2,
          ih (tried + 1)]
      | true =>
        cases ht : env.testNetwork iface p with
        | false =>
          rw [tryProfilesLoop_cons_unreachable env iface tried p rest u hc hp ht]
          simp [List.mem_append, poll_no_enum (env.queryState iface p) iface 30 2,
            ih (tried + 1)]
        | true =>
          rw [tryProfilesLoop_cons_success env iface tried p rest u hc hp ht]
          simp [List.mem_append, poll_no_enum (env.queryState iface p) iface 30 2]

/-- The visible-network step performs no interface enumeration. -/
theorem availStep_no_enum (env : WlanEnv) (strategy : ConnectStrategy) (iface : Nat) :
    Event.enumInterfaces ∉ (availStep env strategy iface).2 := by
  cases strategy with
  | ScanOnly =>
    rcases h : env.availableNetworkList iface with e | nets <;>
      simp [availStep, get_available_network_names, h]
  | All => simp [availStep]
  | Explicit names => simp [availStep]

/-- The per-interface loop performs no interface enumeration. -/
theorem ifaceLoop_no_enum (env : WlanEnv) (strategy : ConnectStrategy) :
    ∀ ifs tried, Event.enumInterfaces ∉ (ifaceLoop env strategy tried ifs).2.2 := by
  intro ifs
  induction ifs with
  | nil => intro tried; simp [ifaceLoop]
  | cons i rest ih =>
    intro tried
    rcases hs : env.savedProfiles i with e | saved
    · rw [ifaceLoop_cons_profileErr env strategy tried i rest e hs]
      simp [ih tried]
    · rcases hav : (availStep env strategy i).1 with u | available
      · rw [ifaceLoop_cons_availErr env strategy tried i rest saved u hs hav]
        simp [List.mem_append, availStep_no_enum env strategy i, ih tried]
      · cases he : (filter_profiles_by_strategy saved strategy available).isEmpty with
        | true =>
          rw [ifaceLoop_cons_empty env strategy tried i rest saved available hs hav he]
          simp [List.mem_append, availStep_no_enum env strategy i, ih tried]
        | false =>
          rcases hf : (tryProfilesLoop env i tried
              (filter_profiles_by_strategy saved strategy available)).1 with _ | p
          · rw [ifaceLoop_cons_notFound env strategy tried i rest saved available hs hav he hf]
            simp [List.mem_append, availStep_no_enum env strategy i,
              tryProfilesLoop_no_enum env i _ tried, ih]
          · rw [ifaceLoop_cons_found env strategy tried i rest saved available p hs hav he hf]
            simp [List.mem_append, availStep_no_enum env strategy i,
              tryProfilesLoop_no_enum env i _ tried]

/-- A trace without the enumeration event has enumeration count zero. -/
theorem countP_isEnum_zero (l : List Event) (h : Event.enumInterfaces ∉ l) :
    l.countP isEnumEv = 0 :=
  List.countP_eq_zero.mpr fun a ha hae => h ((isEnumEv_iff a).mp hae ▸ ha)

/-- C6: with an empty initial interface enumeration, the adapter-enable
fallback is invoked; if it reports failure no retry occurs and the pass
fails with the no-interface reason and zero profiles attempted; if it
reports success the engine sleeps 3 time units and re-enumerates
exactly once, and if the retry is still empty the pass fails with the
no-interface reason and zero profiles attempted. -/
theorem c6_no_interface (env : WlanEnv) (strategy : ConnectStrategy)
    (hopen : env.openResult = Except.ok ())
    (henum : env.enumFirst = Except.ok []) :
    (env.adapterEnable = false →
      connect_any_saved_wifi env strategy =
        (RecoveryOutcome.failure FailReason.noInterface 0,
         [Event.enumInterfaces, Event.adapterEnableAttempt])) ∧
    (env.adapterEnable = true →
      (connect_any_saved_wifi env strategy).2.take 4 =
        [Event.enumInterfaces, Event.adapterEnableAttempt, Event.sleep 3,
         Event.enumInterfaces] ∧
      (connect_any_saved_wifi env strategy).2.countP isEnumEv = 2 ∧
      (env.enumRetry = Except.ok [] →
        connect_any_saved_wifi env strategy =
          (RecoveryOutcome.failure FailReason.noInterface 0,
           [Event.enumInterfaces, Event.adapterEnableAttempt, Event.sleep 3,
            Event.enumInterfaces]))) := by
  constructor
  · intro hen
    simp [connect_any_saved_wifi, hopen, henum, fallbackStep, hen]
  · intro hen
    rcases hr : env.enumRetry with e | ifaces
    · have heq : connect_any_saved_wifi env strategy =
          (RecoveryOutcome.error e,
           [Event.enumInterfaces, Event.adapterEnableAttempt, Event.sleep 3,
            Event.enumInterfaces]) := by
        simp [connect_any_saved_wifi, hopen, henum, fallbackStep, hen, hr]
      rw [heq]
      refine ⟨rfl, by rfl, ?_⟩
      intro h
      exact Except.noConfusion h
    · cases hne : ifaces.isEmpty with
      | true =>
        have hnil : ifaces = [] := by
          cases ifaces with
          | nil => rfl
          | cons a l => simp at hne
        subst hnil
        have heq : connect_any_saved_wifi env strategy =
            (RecoveryOutcome.failure FailReason.noInterface 0,
             [Event.enumInterfaces, Event.adapterEnableAttempt, Event.sleep 3,
              Event.enumInterfaces]) := by
          simp [connect_any_saved_wifi, hopen, henum, fallbackStep, hen, hr]
        rw [heq]
        exact ⟨rfl, by decide, fun _ => rfl⟩
      | false =>
        have heq := engine_fallback_retry env strategy ifaces hopen henum hen hr hne
        rw [heq]
        refine ⟨rfl, ?_, ?_⟩
        · simp [List.countP_cons, isEnumEv,
            countP_isEnum_zero _ (ifaceLoop_no_enum env strategy ifaces 0)]
        · intro h
          have hnil : ifaces = [] := Except.ok.inj h
          subst hnil
          simp at hne

/-- Environment for the C6 witness: no interfaces and an adapter-enable
fallback that reports failure. -/
def envNoIface : WlanEnv where
  openResult := Except.ok ()
  enumFirst := Except.ok []
  adapterEnable := false
  enumRetry := Except.ok []
  savedProfiles := fun _ => Except.ok []
  availableNetworkList := fun _ => Except.ok []
  connectAccepted := fun _ _ => Except.error "no interface"
  queryState := fun _ _ _ => none
  testNetwork := fun _ _ => false

/-- Witness for C6: with no interfaces and a failing fallback the pass
fails with the no-interface reason, zero profiles attempted, and no
retry enumeration. -/
theorem c6_no_interface_witness :
    connect_any_saved_wifi envNoIface ConnectStrategy.ScanOnly =
      (RecoveryOutcome.failure FailReason.noInterface 0,
       [Event.enumInterfaces, Event.adapterEnableAttempt]) :=
  (c6_no_interface envNoIface ConnectStrategy.ScanOnly rfl rfl).1 rfl

/-- Decomposition of the per-interface loop over an append: if the loop
finds a restoring profile within the first block it stops there;
otherwise it continues into the second block with the accumulated tried
counter and the traces concatenate. -/
theorem ifaceLoop_append (env : WlanEnv) (strategy : ConnectStrategy) :
    ∀ l1 l2 tried,
      ifaceLoop env strategy tried (l1 ++ l2) =
        match (ifaceLoop env strategy tried l1).1 with
        | some _ => ifaceLoop env strategy tried l1
        | none =>
          ((ifaceLoop env strategy (ifaceLoop env strategy tried l1).2.1 l2).1,
           (ifaceLoop env strategy (ifaceLoop env strategy tried l1).2.1 l2).2.1,
           (ifaceLoop env strategy tried l1).2.2 ++
             (ifaceLoop env strategy (ifaceLoop env strategy tried l1).2.1 l2).2.2) := by
  intro l1
  induction l1 with
  | nil =>
    intro l2 tried
    simp [ifaceLoop]
  | cons i l1 ih =>
    intro l2 tried
    rcases hs : env.savedProfiles i with e | saved
    · rw [List.cons_append, ifaceLoop_cons_profileErr env strategy tried i (l1 ++ l2) e hs,
        ifaceLoop_cons_profileErr env strategy tried i l1 e hs, ih l2 tried]
      rcases hf1 : (ifaceLoop env strategy tried l1).1 with _ | p <;> simp [hf1]
    · rcases hav : (availStep env strategy i).1 with u | available
      · rw [List.cons_append,
          ifaceLoop_cons_availErr env strategy tried i (l1 ++ l2) saved u hs hav,
          ifaceLoop_cons_availErr env strategy tried i l1 saved u hs hav, ih l2 tried]
        rcases hf1 : (ifaceLoop env strategy tried l1).1 with _ | p <;> simp [hf1]
      · cases he : (filter_profiles_by_strategy saved strategy available).isEmpty with
        | true =>
          rw [List.cons_append,
            ifaceLoop_cons_empty env strategy tried i (l1 ++ l2) saved available hs hav he,
            ifaceLoop_cons_empty env strategy tried i l1 saved available hs hav he,
            ih l2 tried]
          rcases hf1 : (ifaceLoop env strategy tried l1).1 with _ | p <;> simp [hf1]
        | false =>
          rcases hf : (tryProfilesLoop env i tried
              (filter_profiles_by_strategy saved strategy available)).1 with _ | p
          · rw [List.cons_append,
              ifaceLoop_cons_notFound env strategy tried i (l1 ++ l2) saved available
                hs hav he hf,
              ifaceLoop_cons_notFound env strategy tried i l1 saved available hs hav he hf,
              ih l2 ((tryProfilesLoop env i tried
                (filter_profiles_by_strategy saved strategy available)).2.1)]
            rcases hf1 : (ifaceLoop env strategy (tryProfilesLoop env i tried
                (filter_profiles_by_strategy saved strategy available)).2.1 l1).1
              with _ | q <;> simp [hf1]
          · rw [List.cons_append,
              ifaceLoop_cons_found env strategy tried i (l1 ++ l2) saved available p
                hs hav he hf,
              ifaceLoop_cons_found env strategy tried i l1 saved available p hs hav he hf]

/-- C9: a failure of the saved-profile query, or (under ScanOnly) of the
visible-network read, on any interface the pass reaches is recovered
locally: that interface is skipped with no attempt on it and the pass
continues with the interfaces after it; the error is not fatal to the
pass.  `pre` is the arbitrary prefix of interfaces visited before the
failing one, none of which restored the network. -/
theorem c9_skip_interface (env : WlanEnv) (strategy : ConnectStrategy) (pre : List Nat)
    (i : Nat) (rest : List Nat)
    (hopen : env.openResult = Except.ok ())
    (henum : env.enumFirst = Except.ok (pre ++ i :: rest))
    (hpre : (ifaceLoop env strategy 0 pre).1 = none) :
    (∀ e, env.savedProfiles i = Except.error e →
      connect_any_saved_wifi env strategy =
        (loopOutcome
           (ifaceLoop env strategy (ifaceLoop env strategy 0 pre).2.1 rest).1
           (ifaceLoop env strategy (ifaceLoop env strategy 0 pre).2.1 rest).2.1,
         Event.enumInterfaces ::
           ((ifaceLoop env strategy 0 pre).2.2 ++
             Event.getProfileList i ::
               (ifaceLoop env strategy (ifaceLoop env strategy 0 pre).2.1 rest).2.2))) ∧
    (∀ saved e, env.savedProfiles i = Except.ok saved →
      strategy = ConnectStrategy.ScanOnly →
      env.availableNetworkList i = Except.error e →
      connect_any_saved_wifi env strategy =
        (loopOutcome
           (ifaceLoop env strategy (ifaceLoop env strategy 0 pre).2.1 rest).1
           (ifaceLoop env strategy (ifaceLoop env strategy 0 pre).2.1 rest).2.1,
         Event.enumInterfaces ::
           ((ifaceLoop env strategy 0 pre).2.2 ++
             Event.getProfileList i :: Event.scan i :: Event.sleep 2 ::
               Event.readAvailableList i ::
                 (ifaceLoop env strategy (ifaceLoop env strategy 0 pre).2.1 rest).2.2))) := by
  have hne : (pre ++ i :: rest).isEmpty = false := by cases pre <;> rfl
  have heng := engine_nonempty env strategy (pre ++ i :: rest) hopen henum hne
  have happ := ifaceLoop_append env strategy pre (i :: rest) 0
  simp only [hpre] at happ
  constructor
  · intro e hs
    rw [heng, happ,
      ifaceLoop_cons_profileErr env strategy (ifaceLoop env strategy 0 pre).2.1 i rest e hs]
  · intro saved e hs hstrat herr
    subst hstrat
    have hav : availStep env ConnectStrategy.ScanOnly i =
        (Except.error (),
         [Event.scan i, Event.sleep 2, Event.readAvailableList i]) := by
      simp [availStep, get_available_network_names, herr]
    rw [heng, happ,
      ifaceLoop_cons_availErr env ConnectStrategy.ScanOnly
        (ifaceLoop env ConnectStrategy.ScanOnly 0 pre).2.1 i rest saved () hs
        (by rw [hav]),
      hav]
    simp

/-- Environment for the C9 witness: two interfaces; the first has no
saved profiles (so it restores nothing), and the saved-profile query
of the second fails. -/
def envSkip : WlanEnv where
  openResult := Except.ok ()
  enumFirst := Except.ok [0, 1]
  adapterEnable := false
  enumRetry := Except.ok []
  savedProfiles := fun i => if i = 1 then Except.error "stale" else Except.ok []
  availableNetworkList := fun _ => Except.ok []
  connectAccepted := fun _ _ => Except.error "busy"
  queryState := fun _ _ _ => none
  testNetwork := fun _ _ => false

/-- Witness for C9 at a non-initial position: the pass visits interface
0 without success, skips interface 1 after its failed profile query,
and continues with the (empty) remainder of the loop. -/
theorem c9_skip_interface_witness :
    connect_any_saved_wifi envSkip ConnectStrategy.All =
      (loopOutcome
         (ifaceLoop envSkip ConnectStrategy.All
            (ifaceLoop envSkip ConnectStrategy.All 0 [0]).2.1 []).1
         (ifaceLoop envSkip ConnectStrategy.All
            (ifaceLoop envSkip ConnectStrategy.All 0 [0]).2.1 []).2.1,
       Event.enumInterfaces ::
         ((ifaceLoop envSkip ConnectStrategy.All 0 [0]).2.2 ++
           Event.getProfileList 1 ::
             (ifaceLoop envSkip ConnectStrategy.All
               (ifaceLoop envSkip ConnectStrategy.All 0 [0]).2.1 []).2.2)) :=
  (c9_skip_interface envSkip ConnectStrategy.All [0] 1 [] rfl rfl (by decide)).1 "stale" rfl

/-- Environment for the C8 counterexample and witness: one interface
with one saved and visible network. -/
def envScanCex : WlanEnv where
  openResult := Except.ok ()
  enumFirst := Except.ok [0]
  adapterEnable := false
  enumRetry := Except.ok []
  savedProfiles := fun _ => Except.ok ["Home"]
  availableNetworkList := fun _ => Except.ok [{ profileName := "Home", ssid := "Home" }]
  connectAccepted := fun _ _ => Except.error "busy"
  queryState := fun _ _ _ => none
  testNetwork := fun _ _ => false

/-- Counterexample for C8 as stated: the session operation called with
`triggerScan = true` requests the scan and immediately reads the
available-network results — its trace contains no 2 time-unit settle
wait at all, so no wait happens between the scan and the read. -/
theorem c8_counterexample :
    (get_available_network_names envScanCex 0 true).2 =
      [Event.scan 0, Event.readAvailableList 0] ∧
    Event.sleep 2 ∉ (get_available_network_names envScanCex 0 true).2 := by
  decide

/-- C8 amended: the session operation with `triggerScan = true` requests
a fresh scan and reads the results immediately, without any settle wait
(the caller decides whether to sleep); the 2 time-unit settle interval
is instead performed by the recovery engine's ScanOnly path, which
requests the scan itself, waits 2 time units, and only then reads the
available networks (with `triggerScan = false`). -/
theorem c8_scan_settle_amended (env : WlanEnv) (iface : Nat) :
    ((get_available_network_names env iface true).2 =
      [Event.scan iface, Event.readAvailableList iface]) ∧
    (∀ i rest tried saved, env.savedProfiles i = Except.ok saved →
      (ifaceLoop env ConnectStrategy.ScanOnly tried (i :: rest)).2.2.take 4 =
        [Event.getProfileList i, Event.scan i, Event.sleep 2,
         Event.readAvailableList i]) := by
  constructor
  · rcases h : env.availableNetworkList iface with e | nets <;>
      simp [get_available_network_names, h]
  · intro i rest tried saved hs
    rcases h : env.availableNetworkList i with e | nets
    · have hav : availStep env ConnectStrategy.ScanOnly i =
          (Except.error (), [Event.scan i, Event.sleep 2, Event.readAvailableList i]) := by
        simp [availStep, get_available_network_names, h]
      rw [ifaceLoop_cons_availErr env ConnectStrategy.ScanOnly tried i rest saved () hs
        (by rw [hav]), hav]
      rfl
    · have hav : availStep env ConnectStrategy.ScanOnly i =
          (Except.ok (some (collect_network_names nets)),
           [Event.scan i, Event.sleep 2, Event.readAvailableList i]) := by
        simp [availStep, get_available_network_names, h]
      cases he : (filter_profiles_by_strategy saved ConnectStrategy.ScanOnly
          (some (collect_network_names nets))).isEmpty with
      | true =>
        rw [ifaceLoop_cons_empty env ConnectStrategy.ScanOnly tried i rest saved
          (some (collect_network_names nets)) hs (by rw [hav]) he, hav]
        rfl
      | false =>
        rcases hf : (tryProfilesLoop env i tried (filter_profiles_by_strategy saved
            ConnectStrategy.ScanOnly (some (collect_network_names nets)))).1 with _ | p
        · rw [ifaceLoop_cons_notFound env ConnectStrategy.ScanOnly tried i rest saved
            (some (collect_network_names nets)) hs (by rw [hav]) he hf, hav]
          rfl
        · rw [ifaceLoop_cons_found env ConnectStrategy.ScanOnly tried i rest saved
            (some (collect_network_names nets)) p hs (by rw [hav]) he hf, hav]
          rfl

/-- Witness for the amended C8: in `envScanCex` the engine's ScanOnly
path on interface 0 queries profiles, scans, waits 2 time units, then
reads the available networks. -/
theorem c8_scan_settle_amended_witness :
    (ifaceLoop envScanCex ConnectStrategy.ScanOnly 0 [0]).2.2.take 4 =
      [Event.getProfileList 0, Event.scan 0, Event.sleep 2,
       Event.readAvailableList 0] :=
  (c8_scan_settle_amended envScanCex 0).2 0 [] 0 ["Home"] rfl
